import Mathlib

/-
  Verification of the car-showroom engine core: AABB collision detection and
  resolution (Collision.cpp), camera modes (Camera.cpp), lazy model-matrix
  caching (Model.cpp), the render-command queue with transparency ordering
  (Renderer.cpp), and the animation system (Animation.cpp).

  The C++ float arithmetic is embedded as exact rational arithmetic (ℚ).
  Transcendental library calls (sqrtf, sinf, cosf, powf) have no exact
  rational counterpart; they are passed as explicit function parameters
  (oracles) so every definition stays executable and the control flow of the
  source is preserved exactly.
-/

namespace Showroom

/-- A 3D vector over ℚ, modelling glm::vec3. -/
structure Vec3 where
  x : ℚ
  y : ℚ
  z : ℚ
deriving DecidableEq, Repr

namespace Vec3

/-- Componentwise addition (glm vec3 operator+). -/
def add (a b : Vec3) : Vec3 := ⟨a.x + b.x, a.y + b.y, a.z + b.z⟩

/-- Componentwise subtraction (glm vec3 operator-). -/
def sub (a b : Vec3) : Vec3 := ⟨a.x - b.x, a.y - b.y, a.z - b.z⟩

/-- Scalar multiplication (glm vec3 operator* with a scalar). -/
def smul (k : ℚ) (v : Vec3) : Vec3 := ⟨k * v.x, k * v.y, k * v.z⟩

/-- Dot product (glm::dot). -/
def dot (a b : Vec3) : ℚ := a.x * b.x + a.y * b.y + a.z * b.z

/-- Cross product (glm::cross). -/
def cross (a b : Vec3) : Vec3 :=
  ⟨a.y * b.z - a.z * b.y, a.z * b.x - a.x * b.z, a.x * b.y - a.y * b.x⟩

/-- Componentwise minimum (glm::min on vec3). -/
def vmin (a b : Vec3) : Vec3 := ⟨min a.x b.x, min a.y b.y, min a.z b.z⟩

/-- Componentwise maximum (glm::max on vec3). -/
def vmax (a b : Vec3) : Vec3 := ⟨max a.x b.x, max a.y b.y, max a.z b.z⟩

/-- The zero vector, glm::vec3(0.0f). -/
def zero : Vec3 := ⟨0, 0, 0⟩

/-- glm::normalize modelled with an explicit square-root oracle sq:
v / sqrt(dot v v). -/
def normalizeWith (sq : ℚ → ℚ) (v : Vec3) : Vec3 :=
  smul (1 / sq (dot v v)) v

end Vec3

/-- std::clamp(v, lo, hi): lo if v < lo, hi if hi < v, otherwise v. -/
def clampQ (v lo hi : ℚ) : ℚ :=
  if v < lo then lo else if hi < v then hi else v

/-- Axis-aligned bounding box (Collision.h struct AABB). -/
structure AABB where
  min : Vec3
  max : Vec3
deriving DecidableEq, Repr

namespace AABB

/-- AABB::getCenter: (min + max) * 0.5f. -/
def getCenter (b : AABB) : Vec3 := Vec3.smul (1/2) (Vec3.add b.min b.max)

/-- Translate both corners by a vector (the testBox update in
CollisionWorld::resolveCollisions). -/
def translate (b : AABB) (v : Vec3) : AABB :=
  ⟨Vec3.add b.min v, Vec3.add b.max v⟩

end AABB

/-- Result of a collision test (Collision.h struct CollisionResult). -/
structure CollisionResult where
  hit : Bool
  point : Vec3
  normal : Vec3
  penetration : ℚ
deriving DecidableEq, Repr

/-- The default-constructed CollisionResult: no hit, everything zero. -/
def CollisionResult.empty : CollisionResult :=
  ⟨false, Vec3.zero, Vec3.zero, 0⟩

namespace Collision

/-- Collision::testAABBvsAABB: separation test on each axis. -/
def testAABBvsAABB (a b : AABB) : Bool :=
  !(decide (a.max.x < b.min.x) || decide (a.min.x > b.max.x)) &&
  !(decide (a.max.y < b.min.y) || decide (a.min.y > b.max.y)) &&
  !(decide (a.max.z < b.min.z) || decide (a.min.z > b.max.z))

/-- Overlap of a and b along the X axis, as computed by
Collision::testAABBvsAABBResponse. -/
def overlapX (a b : AABB) : ℚ := min (a.max.x - b.min.x) (b.max.x - a.min.x)

/-- Overlap of a and b along the Y axis. -/
def overlapY (a b : AABB) : ℚ := min (a.max.y - b.min.y) (b.max.y - a.min.y)

/-- Overlap of a and b along the Z axis. -/
def overlapZ (a b : AABB) : ℚ := min (a.max.z - b.min.z) (b.max.z - a.min.z)

/-- The penetration/normal selection chain of Collision::testAABBvsAABBResponse:
the first axis (in evaluation order X, Y, Z) whose overlap is no larger than
the other two; the normal pushes a away from b's center on that axis. -/
def penNormal (a b : AABB) : ℚ × Vec3 :=
  if overlapX a b ≤ overlapY a b ∧ overlapX a b ≤ overlapZ a b then
    (overlapX a b,
      if (AABB.getCenter a).x < (AABB.getCenter b).x then ⟨-1, 0, 0⟩ else ⟨1, 0, 0⟩)
  else if overlapY a b ≤ overlapX a b ∧ overlapY a b ≤ overlapZ a b then
    (overlapY a b,
      if (AABB.getCenter a).y < (AABB.getCenter b).y then ⟨0, -1, 0⟩ else ⟨0, 1, 0⟩)
  else
    (overlapZ a b,
      if (AABB.getCenter a).z < (AABB.getCenter b).z then ⟨0, 0, -1⟩ else ⟨0, 0, 1⟩)

/-- Collision::testAABBvsAABBResponse: minimal-overlap axis selection with
evaluation-order tie-break X, Y, Z; normal pushes a away from b's center;
contact point is the center of the overlap region. -/
def testAABBvsAABBResponse (a b : AABB) : CollisionResult :=
  if testAABBvsAABB a b = false then CollisionResult.empty
  else
    { hit := true
      point := Vec3.smul (1/2) (Vec3.add (Vec3.vmax a.min b.min) (Vec3.vmin a.max b.max))
      normal := (penNormal a b).2
      penetration := (penNormal a b).1 }

end Collision

/-- The interiors of the two boxes intersect: strict overlap on every axis.
Exactly the boxes for which testAABBvsAABBResponse reports a strictly
positive penetration. -/
def interiorOverlap (a b : AABB) : Prop :=
  b.min.x < a.max.x ∧ a.min.x < b.max.x ∧
  b.min.y < a.max.y ∧ a.min.y < b.max.y ∧
  b.min.z < a.max.z ∧ a.min.z < b.max.z

instance (a b : AABB) : Decidable (interiorOverlap a b) := by
  unfold interiorOverlap; infer_instance

/-- CollisionWorld::m_staticBoxes in insertion order. -/
abbrev CollisionWorld : Type := List AABB

/-- The fold step inside CollisionWorld::testAgainstStatic: keep the result
with the strictly greatest penetration among hits. -/
def deepestStep (movingBox : AABB) (deepest : CollisionResult) (staticBox : AABB) :
    CollisionResult :=
  let result := Collision.testAABBvsAABBResponse movingBox staticBox
  if result.hit = true ∧ result.penetration > deepest.penetration then result else deepest

/-- CollisionWorld::testAgainstStatic: scan all static boxes, keeping the
deepest hit; starts from a zero-penetration non-hit. -/
def testAgainstStatic (world : CollisionWorld) (movingBox : AABB) : CollisionResult :=
  world.foldl (deepestStep movingBox) CollisionResult.empty

/-- The loop of CollisionWorld::resolveCollisions, carrying both the tracked
position and the shifted test box; fuel is the remaining iteration count. -/
def resolveLoop (world : CollisionWorld) :
    ℕ → AABB → Vec3 → Vec3 × AABB
  | 0, testBox, pos => (pos, testBox)
  | n + 1, testBox, pos =>
    let result := testAgainstStatic world testBox
    if result.hit = false then (pos, testBox)
    else
      let push := Vec3.smul (result.penetration + 1/1000) result.normal
      resolveLoop world n (testBox.translate push) (Vec3.add pos push)

/-- CollisionWorld::resolveCollisions: at most 4 push iterations, returning
the corrected position. -/
def resolveCollisions (world : CollisionWorld) (movingBox : AABB) (currentPos : Vec3) :
    Vec3 :=
  (resolveLoop world 4 movingBox currentPos).1

/-- The smallest of the three per-axis overlaps; the penetration depth the
spec says testAABBvsAABBResponse selects. -/
def Collision.smallestOverlap (a b : AABB) : ℚ :=
  min (Collision.overlapX a b) (min (Collision.overlapY a b) (Collision.overlapZ a b))

/-- Shorthand for the penetration reported by the pairwise response test. -/
def penOf (box b : AABB) : ℚ := (Collision.testAABBvsAABBResponse box b).penetration

/-- A 4x4 rational matrix, modelling glm::mat4 (row i, column j; glm stores
columns, so glm m[3] is column 3 here). -/
abbrev Mat4 : Type := Matrix (Fin 4) (Fin 4) ℚ

/-- The translation component of a transform, glm vec3(transform[3]). -/
def translationOf (m : Mat4) : Vec3 := ⟨m 0 3, m 1 3, m 2 3⟩

/-- glm::translate(mat4(1), v). -/
def translateMat (v : Vec3) : Mat4 :=
  Matrix.of ![![1, 0, 0, v.x], ![0, 1, 0, v.y], ![0, 0, 1, v.z], ![0, 0, 0, 1]]

/-- glm::rotate(mat4(1), radians(deg), vec3(0,0,1)); cd and sd are oracles for
cosf and sinf composed with the degree-to-radian conversion. -/
def rotZMat (cd sd : ℚ → ℚ) (deg : ℚ) : Mat4 :=
  Matrix.of ![![cd deg, -(sd deg), 0, 0], ![sd deg, cd deg, 0, 0],
              ![0, 0, 1, 0], ![0, 0, 0, 1]]

/-- glm::rotate(mat4(1), radians(deg), vec3(0,1,0)). -/
def rotYMat (cd sd : ℚ → ℚ) (deg : ℚ) : Mat4 :=
  Matrix.of ![![cd deg, 0, sd deg, 0], ![0, 1, 0, 0],
              ![-(sd deg), 0, cd deg, 0], ![0, 0, 0, 1]]

/-- glm::rotate(mat4(1), radians(deg), vec3(1,0,0)). -/
def rotXMat (cd sd : ℚ → ℚ) (deg : ℚ) : Mat4 :=
  Matrix.of ![![1, 0, 0, 0], ![0, cd deg, -(sd deg), 0],
              ![0, sd deg, cd deg, 0], ![0, 0, 0, 1]]

/-- glm::scale(mat4(1), v). -/
def scaleMat (v : Vec3) : Mat4 :=
  Matrix.of ![![v.x, 0, 0, 0], ![0, v.y, 0, 0], ![0, 0, v.z, 0], ![0, 0, 0, 1]]

/-- The world matrix built by Model::updateModelMatrix:
Translate * RotZ * RotY * RotX * Scale. -/
def buildModelMatrix (cd sd : ℚ → ℚ) (pos rot scl : Vec3) : Mat4 :=
  translateMat pos * rotZMat cd sd rot.z * rotYMat cd sd rot.y *
    rotXMat cd sd rot.x * scaleMat scl

/-- The transform state of Model.cpp: position/rotation/scale plus the lazily
cached world matrix and its dirty flag. recomputeCount instruments how many
times updateModelMatrix has run (the recompute counter the spec's test plan
asks for). -/
structure ModelT where
  position : Vec3
  rotation : Vec3
  scale : Vec3
  modelMatrix : Mat4
  modelMatrixDirty : Bool
  recomputeCount : ℕ

/-- The transform state made by the Model constructors: position 0,
rotation 0, scale 1, identity cached matrix, dirty flag set. -/
def ModelT.init : ModelT :=
  ⟨Vec3.zero, Vec3.zero, ⟨1, 1, 1⟩, 1, true, 0⟩

/-- Model::setPosition. -/
def ModelT.setPosition (v : Vec3) (m : ModelT) : ModelT :=
  { m with position := v, modelMatrixDirty := true }

/-- Model::setRotation. -/
def ModelT.setRotation (v : Vec3) (m : ModelT) : ModelT :=
  { m with rotation := v, modelMatrixDirty := true }

/-- Model::setScale (vector overload). -/
def ModelT.setScale (v : Vec3) (m : ModelT) : ModelT :=
  { m with scale := v, modelMatrixDirty := true }

/-- Model::setScale (uniform overload). -/
def ModelT.setScaleUniform (k : ℚ) (m : ModelT) : ModelT :=
  { m with scale := ⟨k, k, k⟩, modelMatrixDirty := true }

/-- Model::updateModelMatrix: rebuild the cached matrix from the current
position/rotation/scale and clear the dirty flag. -/
def ModelT.updateModelMatrix (cd sd : ℚ → ℚ) (m : ModelT) : ModelT :=
  { m with modelMatrix := buildModelMatrix cd sd m.position m.rotation m.scale
           modelMatrixDirty := false
           recomputeCount := m.recomputeCount + 1 }

/-- Model::getModelMatrix: recompute only when dirty, then return the cache.
Returns the matrix together with the mutated (const-cast) object. -/
def ModelT.getModelMatrix (cd sd : ℚ → ℚ) (m : ModelT) : Mat4 × ModelT :=
  if m.modelMatrixDirty = true then
    let m' := m.updateModelMatrix cd sd
    (m'.modelMatrix, m')
  else
    (m.modelMatrix, m)

/-- The cached matrix is not stale: whenever the dirty flag is clear, the
cache equals the matrix of the current position/rotation/scale. -/
def ModelT.coherent (cd sd : ℚ → ℚ) (m : ModelT) : Prop :=
  m.modelMatrixDirty = false →
    m.modelMatrix = buildModelMatrix cd sd m.position m.rotation m.scale

/-- A queued draw request (Renderer.h struct RenderCommand); the model is a
non-owning reference, kept as an identifier. -/
structure RenderCommand where
  model : ℕ
  transform : Mat4
  transparent : Bool
  distanceToCamera : ℚ

/-- The per-frame queue state of Renderer.cpp. -/
structure RendererState where
  opaqueCommands : List RenderCommand
  transparentCommands : List RenderCommand
  cameraPosition : Vec3

/-- Renderer state right after beginFrame: both command queues empty. -/
def RendererState.fresh (cameraPosition : Vec3) : RendererState :=
  ⟨[], [], cameraPosition⟩

/-- Renderer::submit: classify by material opacity (opacity < 1 means
transparent); transparent commands store the camera distance
glm::length(cameraPosition - transform[3]) at submission time, through the
square-root oracle sq. -/
def RendererState.submit (sq : ℚ → ℚ) (s : RendererState) (modelId : ℕ)
    (opacity : ℚ) (transform : Mat4) : RendererState :=
  if opacity < 1 then
    let modelPos := translationOf transform
    let d := Vec3.sub s.cameraPosition modelPos
    let cmd : RenderCommand := ⟨modelId, transform, true, sq (Vec3.dot d d)⟩
    { s with transparentCommands := s.transparentCommands ++ [cmd] }
  else
    { s with opaqueCommands := s.opaqueCommands ++ [⟨modelId, transform, false, 0⟩] }

/-- Renderer::sortTransparentCommands: sort back to front, furthest first
(std::sort with comparator a.distanceToCamera > b.distanceToCamera; the
sort algorithm is unspecified, so any comparison sort is a faithful model). -/
def sortTransparentCommands (l : List RenderCommand) : List RenderCommand :=
  List.insertionSort (fun a b => b.distanceToCamera ≤ a.distanceToCamera) l

/-- Renderer::endFrame, as the sequence of commands handed to executeCommand:
all opaque commands in submission order, then the transparent commands
sorted by descending stored distance. -/
def RendererState.endFrame (s : RendererState) : List RenderCommand :=
  s.opaqueCommands ++ sortTransparentCommands s.transparentCommands

/-- The three camera interaction modes (Camera.h enum CameraMode). -/
inductive CameraMode where
  | FREE_ROAM
  | ORBIT
  | DRIVER_SEAT
deriving DecidableEq, Repr

/-- Camera state (Camera.h). Angles are in degrees, as stored by the code. -/
structure Camera where
  position : Vec3
  front : Vec3
  up : Vec3
  right : Vec3
  worldUp : Vec3
  yaw : ℚ
  pitch : ℚ
  movementSpeed : ℚ
  mouseSensitivity : ℚ
  fov : ℚ
  nearPlane : ℚ
  farPlane : ℚ
  mode : CameraMode
  orbitTarget : Vec3
  orbitRadius : ℚ
  orbitYaw : ℚ
  orbitPitch : ℚ
  driverSeatPosition : Vec3
  driverSeatYawLimit : ℚ
  driverSeatPitchLimit : ℚ

/-- Camera::updateCameraVectors: front from yaw/pitch via spherical-to-
Cartesian conversion, then orthonormal right/up; cd deg and sd deg are
oracles for cosf(radians(deg)) and sinf(radians(deg)), sq for sqrtf inside
glm::normalize. -/
def Camera.updateCameraVectors (cd sd sq : ℚ → ℚ) (c : Camera) : Camera :=
  let front := Vec3.normalizeWith sq
    ⟨cd c.yaw * cd c.pitch, sd c.pitch, sd c.yaw * cd c.pitch⟩
  let right := Vec3.normalizeWith sq (Vec3.cross front c.worldUp)
  let up := Vec3.normalizeWith sq (Vec3.cross right front)
  { c with front := front, right := right, up := up }

/-- The field values set by the default Camera constructor, before its
closing updateCameraVectors() call. -/
def Camera.defaultFields : Camera :=
  { position := ⟨0, 2, 5⟩
    front := ⟨0, 0, -1⟩
    up := ⟨0, 1, 0⟩
    right := ⟨1, 0, 0⟩
    worldUp := ⟨0, 1, 0⟩
    yaw := -90
    pitch := 0
    movementSpeed := 5
    mouseSensitivity := 1/10
    fov := 45
    nearPlane := 1/10
    farPlane := 100
    mode := CameraMode.FREE_ROAM
    orbitTarget := Vec3.zero
    orbitRadius := 5
    orbitYaw := 0
    orbitPitch := 20
    driverSeatPosition := ⟨0, 1, 1/2⟩
    driverSeatYawLimit := 120
    driverSeatPitchLimit := 45 }

/-- The default Camera constructor: field initialisers then
updateCameraVectors(). -/
def Camera.mk' (cd sd sq : ℚ → ℚ) : Camera :=
  Camera.updateCameraVectors cd sd sq Camera.defaultFields

/-- Camera::updateOrbitPosition: place the camera on the sphere around the
orbit target and look at the target. -/
def Camera.updateOrbitPosition (cd sd sq : ℚ → ℚ) (c : Camera) : Camera :=
  let offset : Vec3 :=
    ⟨c.orbitRadius * cd c.orbitPitch * cd c.orbitYaw,
     c.orbitRadius * sd c.orbitPitch,
     c.orbitRadius * cd c.orbitPitch * sd c.orbitYaw⟩
  let position := Vec3.add c.orbitTarget offset
  let front := Vec3.normalizeWith sq (Vec3.sub c.orbitTarget position)
  let right := Vec3.normalizeWith sq (Vec3.cross front c.worldUp)
  let up := Vec3.normalizeWith sq (Vec3.cross right front)
  { c with position := position, front := front, right := right, up := up }

/-- Camera::processMouseMovement: scale offsets by sensitivity, then a single
dispatch on the current mode. -/
def Camera.processMouseMovement (cd sd sq : ℚ → ℚ) (xoffset yoffset : ℚ)
    (constrainPitch : Bool) (c : Camera) : Camera :=
  let xo := xoffset * c.mouseSensitivity
  let yo := yoffset * c.mouseSensitivity
  match c.mode with
  | CameraMode.FREE_ROAM =>
    let yaw := c.yaw + xo
    let pitch0 := c.pitch + yo
    let pitch := if constrainPitch then clampQ pitch0 (-89) 89 else pitch0
    Camera.updateCameraVectors cd sd sq { c with yaw := yaw, pitch := pitch }
  | CameraMode.ORBIT =>
    let oyaw := c.orbitYaw - xo
    let opitch := clampQ (c.orbitPitch + yo) (-80) 80
    Camera.updateOrbitPosition cd sd sq { c with orbitYaw := oyaw, orbitPitch := opitch }
  | CameraMode.DRIVER_SEAT =>
    let yaw := clampQ (c.yaw + xo) (-90 - c.driverSeatYawLimit) (-90 + c.driverSeatYawLimit)
    let pitch := clampQ (c.pitch + yo) (-c.driverSeatPitchLimit) c.driverSeatPitchLimit
    Camera.updateCameraVectors cd sd sq { c with yaw := yaw, pitch := pitch }

namespace Easing

/-- Easing::linear. -/
def linear (t : ℚ) : ℚ := t

/-- Easing::easeInQuad. -/
def easeInQuad (t : ℚ) : ℚ := t * t

/-- Easing::easeOutQuad. -/
def easeOutQuad (t : ℚ) : ℚ := t * (2 - t)

/-- Easing::easeInOutQuad. -/
def easeInOutQuad (t : ℚ) : ℚ :=
  if t < 1/2 then 2 * t * t else -1 + (4 - 2 * t) * t

/-- Easing::easeInCubic. -/
def easeInCubic (t : ℚ) : ℚ := t * t * t

/-- Easing::easeOutCubic. -/
def easeOutCubic (t : ℚ) : ℚ :=
  let f := t - 1
  f * f * f + 1

/-- Easing::easeInOutCubic. -/
def easeInOutCubic (t : ℚ) : ℚ :=
  if t < 1/2 then 4 * t * t * t
  else
    let f := 2 * t - 2
    1/2 * f * f * f + 1

/-- The float literal 3.14159265359f used by the elastic easings. -/
def piLit : ℚ := 3.14159265359

/-- Easing::easeInElastic; pw and sn are oracles for powf(2, x) and sinf.
The endpoints are special-cased, so they never reach the oracles. -/
def easeInElastic (pw sn : ℚ → ℚ) (t : ℚ) : ℚ :=
  if t = 0 ∨ t = 1 then t
  else
    let p : ℚ := 3/10
    let s : ℚ := p / 4
    let postFix := pw (10 * (t - 1));
    -(postFix * sn ((t - 1 - s) * (2 * piLit) / p))

/-- Easing::easeOutElastic. -/
def easeOutElastic (pw sn : ℚ → ℚ) (t : ℚ) : ℚ :=
  if t = 0 ∨ t = 1 then t
  else
    let p : ℚ := 3/10
    let s : ℚ := p / 4
    pw (-10 * t) * sn ((t - s) * (2 * piLit) / p) + 1

/-- Easing::easeOutBounce. -/
def easeOutBounce (t : ℚ) : ℚ :=
  if t < 1 / 2.75 then 7.5625 * t * t
  else if t < 2 / 2.75 then
    let postFix := t - 1.5 / 2.75
    7.5625 * postFix * postFix + 0.75
  else if t < 2.5 / 2.75 then
    let postFix := t - 2.25 / 2.75
    7.5625 * postFix * postFix + 0.9375
  else
    let postFix := t - 2.625 / 2.75
    7.5625 * postFix * postFix + 0.984375

end Easing

/-- Animation state (Animation.h). The easing function is stored as a field,
as in the source; the completion callback is modelled by whether one is set
plus a count of how many times it has been invoked. -/
structure AnimationState where
  startValue : ℚ
  endValue : ℚ
  currentValue : ℚ
  duration : ℚ
  elapsed : ℚ
  complete : Bool
  paused : Bool
  easing : ℚ → ℚ
  hasCallback : Bool
  callbackCount : ℕ

/-- The Animation constructor: current value starts at the start value,
elapsed 0, not complete, not paused, no callback. -/
def AnimationState.mk' (startValue endValue duration : ℚ) (easing : ℚ → ℚ) :
    AnimationState :=
  ⟨startValue, endValue, startValue, duration, 0, false, false, easing, false, 0⟩

/-- Animation::update: returns the new value together with the new state. -/
def AnimationState.update (dt : ℚ) (s : AnimationState) : ℚ × AnimationState :=
  if s.complete = true ∨ s.paused = true then (s.currentValue, s)
  else
    let elapsed := s.elapsed + dt
    let t0 := elapsed / s.duration
    let tcc : ℚ × Bool × ℕ :=
      if 1 ≤ t0 then (1, true, s.callbackCount + (if s.hasCallback = true then 1 else 0))
      else (t0, s.complete, s.callbackCount)
    let easedT := s.easing tcc.1
    let value := s.startValue + (s.endValue - s.startValue) * easedT
    (value, { s with elapsed := elapsed, complete := tcc.2.1,
                     callbackCount := tcc.2.2, currentValue := value })

/-- Animation::reset. -/
def AnimationState.reset (s : AnimationState) : AnimationState :=
  { s with elapsed := 0, complete := false, currentValue := s.startValue }

/-- Animation::reverse. -/
def AnimationState.reverse (s : AnimationState) : AnimationState :=
  { s with startValue := s.endValue, endValue := s.startValue,
           elapsed := 0, complete := false }

/-- Animation::getValue. -/
def AnimationState.getValue (s : AnimationState) : ℚ := s.currentValue

/-- C3 fixture: the box a of the spec's penetration-axis test. -/
def boxA : AABB := ⟨⟨-1, -1, -1⟩, ⟨1, 1, 1⟩⟩

/-- C3 fixture: the box b of the spec's penetration-axis test. -/
def boxB : AABB := ⟨⟨1/2, -1, -1⟩, ⟨5/2, 1, 1⟩⟩

/-- C2 fixture: a moving box overlapping two walls at different depths. -/
def movingBoxEx : AABB := ⟨⟨0, 0, 0⟩, ⟨2, 2, 2⟩⟩

/-- C2 fixture: wall overlapped with penetration 1/2. -/
def wallShallow : AABB := ⟨⟨3/2, 0, 0⟩, ⟨3, 2, 2⟩⟩

/-- C2 fixture: wall overlapped with penetration 1. -/
def wallDeep : AABB := ⟨⟨1, 0, 0⟩, ⟨3, 2, 2⟩⟩

/-- C2 fixture: a two-wall collision world, shallow wall inserted first. -/
def worldEx : CollisionWorld := [wallShallow, wallDeep]

/-- C4 fixture: a wall box. -/
def wallBig : AABB := ⟨⟨-2, -2, -2⟩, ⟨2, 2, 2⟩⟩

/-- C4 fixture: a moving box fully inside wallBig. -/
def boxInside : AABB := ⟨⟨-1/2, -1/2, -1/2⟩, ⟨1/2, 1/2, 1/2⟩⟩

/-- C6 fixture: an orbiting camera with yaw 0, pitch 0, radius 5 around the
origin. -/
def orbitCamEx : Camera :=
  { Camera.defaultFields with
      mode := CameraMode.ORBIT
      orbitYaw := 0
      orbitPitch := 0
      orbitRadius := 5
      orbitTarget := Vec3.zero }

/-- C9 fixture: an animation from 0 to 10 over 2 seconds with linear easing. -/
def animEx : AnimationState := AnimationState.mk' 0 10 2 Easing.linear

/-! Theorems: the remainder of the file proves the specification claims about
the definitions above. -/

theorem test_eq_true_iff (a b : AABB) :
    Collision.testAABBvsAABB a b = true ↔
      (b.min.x ≤ a.max.x ∧ a.min.x ≤ b.max.x ∧
       b.min.y ≤ a.max.y ∧ a.min.y ≤ b.max.y ∧
       b.min.z ≤ a.max.z ∧ a.min.z ≤ b.max.z) := by
  simp only [Collision.testAABBvsAABB, Bool.and_eq_true, Bool.not_eq_true',
    Bool.or_eq_false_iff, decide_eq_false_iff_not, not_lt, gt_iff_lt]
  tauto

theorem response_of_test_false {a b : AABB}
    (h : Collision.testAABBvsAABB a b = false) :
    Collision.testAABBvsAABBResponse a b = CollisionResult.empty := by
  simp [Collision.testAABBvsAABBResponse, h]

theorem response_of_test_true {a b : AABB}
    (h : Collision.testAABBvsAABB a b = true) :
    Collision.testAABBvsAABBResponse a b =
      { hit := true
        point := Vec3.smul (1/2) (Vec3.add (Vec3.vmax a.min b.min) (Vec3.vmin a.max b.max))
        normal := (Collision.penNormal a b).2
        penetration := (Collision.penNormal a b).1 } := by
  simp [Collision.testAABBvsAABBResponse, h]

theorem penNormal_fst (a b : AABB) :
    (Collision.penNormal a b).1 = Collision.smallestOverlap a b := by
  unfold Collision.penNormal Collision.smallestOverlap
  by_cases h1 : Collision.overlapX a b ≤ Collision.overlapY a b ∧
      Collision.overlapX a b ≤ Collision.overlapZ a b
  · rw [if_pos h1]
    exact (min_eq_left (le_min h1.1 h1.2)).symm
  · rw [if_neg h1]
    by_cases h2 : Collision.overlapY a b ≤ Collision.overlapX a b ∧
        Collision.overlapY a b ≤ Collision.overlapZ a b
    · rw [if_pos h2]
      show Collision.overlapY a b = _
      rw [min_eq_left h2.2, min_eq_right h2.1]
    · rw [if_neg h2]
      push_neg at h1 h2
      show Collision.overlapZ a b = _
      rcases le_or_lt (Collision.overlapX a b) (Collision.overlapY a b) with hxy | hxy
      · have hzx := h1 hxy
        have hin : min (Collision.overlapY a b) (Collision.overlapZ a b) =
            Collision.overlapZ a b := min_eq_right (by linarith)
        rw [hin, min_eq_right (by linarith)]
      · have hzy := h2 (le_of_lt hxy)
        have hin : min (Collision.overlapY a b) (Collision.overlapZ a b) =
            Collision.overlapZ a b := min_eq_right (le_of_lt hzy)
        rw [hin, min_eq_right (by linarith)]

theorem smallestOverlap_le_x (a b : AABB) :
    Collision.smallestOverlap a b ≤ Collision.overlapX a b :=
  min_le_left _ _

theorem smallestOverlap_le_y (a b : AABB) :
    Collision.smallestOverlap a b ≤ Collision.overlapY a b :=
  le_trans (min_le_right _ _) (min_le_left _ _)

theorem smallestOverlap_le_z (a b : AABB) :
    Collision.smallestOverlap a b ≤ Collision.overlapZ a b :=
  le_trans (min_le_right _ _) (min_le_right _ _)

theorem penNormal_snd_x (a b : AABB)
    (hx : Collision.overlapX a b = Collision.smallestOverlap a b) :
    (Collision.penNormal a b).2 =
      if (AABB.getCenter a).x < (AABB.getCenter b).x then (⟨-1, 0, 0⟩ : Vec3)
      else ⟨1, 0, 0⟩ := by
  have h1 : Collision.overlapX a b ≤ Collision.overlapY a b ∧
      Collision.overlapX a b ≤ Collision.overlapZ a b :=
    ⟨hx ▸ smallestOverlap_le_y a b, hx ▸ smallestOverlap_le_z a b⟩
  unfold Collision.penNormal
  rw [if_pos h1]

theorem penNormal_snd_y (a b : AABB)
    (hx : Collision.overlapX a b ≠ Collision.smallestOverlap a b)
    (hy : Collision.overlapY a b = Collision.smallestOverlap a b) :
    (Collision.penNormal a b).2 =
      if (AABB.getCenter a).y < (AABB.getCenter b).y then (⟨0, -1, 0⟩ : Vec3)
      else ⟨0, 1, 0⟩ := by
  have h1 : ¬(Collision.overlapX a b ≤ Collision.overlapY a b ∧
      Collision.overlapX a b ≤ Collision.overlapZ a b) := by
    intro h
    exact hx (min_eq_left (le_min h.1 h.2)).symm
  have h2 : Collision.overlapY a b ≤ Collision.overlapX a b ∧
      Collision.overlapY a b ≤ Collision.overlapZ a b :=
    ⟨hy ▸ smallestOverlap_le_x a b, hy ▸ smallestOverlap_le_z a b⟩
  unfold Collision.penNormal
  rw [if_neg h1, if_pos h2]

theorem penNormal_snd_z (a b : AABB)
    (hx : Collision.overlapX a b ≠ Collision.smallestOverlap a b)
    (hy : Collision.overlapY a b ≠ Collision.smallestOverlap a b) :
    (Collision.penNormal a b).2 =
      if (AABB.getCenter a).z < (AABB.getCenter b).z then (⟨0, 0, -1⟩ : Vec3)
      else ⟨0, 0, 1⟩ := by
  have h1 : ¬(Collision.overlapX a b ≤ Collision.overlapY a b ∧
      Collision.overlapX a b ≤ Collision.overlapZ a b) := by
    intro h
    exact hx (min_eq_left (le_min h.1 h.2)).symm
  have h2 : ¬(Collision.overlapY a b ≤ Collision.overlapX a b ∧
      Collision.overlapY a b ≤ Collision.overlapZ a b) := by
    intro h
    apply hy
    show _ = min _ _
    rw [min_eq_left h.2, min_eq_right h.1]
  unfold Collision.penNormal
  rw [if_neg h1, if_neg h2]

theorem overlaps_nonneg {a b : AABB} (h : Collision.testAABBvsAABB a b = true) :
    0 ≤ Collision.overlapX a b ∧ 0 ≤ Collision.overlapY a b ∧
      0 ≤ Collision.overlapZ a b := by
  rw [test_eq_true_iff] at h
  obtain ⟨h1, h2, h3, h4, h5, h6⟩ := h
  refine ⟨le_min (by linarith) (by linarith), le_min (by linarith) (by linarith),
    le_min (by linarith) (by linarith)⟩

theorem response_pen_nonneg (box b : AABB) : 0 ≤ penOf box b := by
  unfold penOf
  rcases Bool.eq_false_or_eq_true (Collision.testAABBvsAABB box b) with h | h
  · rw [response_of_test_true h]
    have := overlaps_nonneg h
    rw [penNormal_fst]
    exact le_min this.1 (le_min this.2.1 this.2.2)
  · rw [response_of_test_false h]
    exact le_refl 0

theorem response_hit_of_pen_pos {box b : AABB} (h : 0 < penOf box b) :
    (Collision.testAABBvsAABBResponse box b).hit = true := by
  rcases Bool.eq_false_or_eq_true (Collision.testAABBvsAABB box b) with ht | ht
  · rw [response_of_test_true ht]
  · exfalso
    unfold penOf at h
    rw [response_of_test_false ht] at h
    exact absurd h (by norm_num [CollisionResult.empty])

theorem interiorOverlap_iff_pen_pos (a b : AABB) :
    interiorOverlap a b ↔ 0 < penOf a b := by
  constructor
  · intro h
    obtain ⟨h1, h2, h3, h4, h5, h6⟩ := h
    have ht : Collision.testAABBvsAABB a b = true := by
      rw [test_eq_true_iff]
      exact ⟨le_of_lt h1, le_of_lt h2, le_of_lt h3, le_of_lt h4, le_of_lt h5, le_of_lt h6⟩
    unfold penOf
    rw [response_of_test_true ht, penNormal_fst]
    have hx : 0 < Collision.overlapX a b := lt_min (by linarith) (by linarith)
    have hy : 0 < Collision.overlapY a b := lt_min (by linarith) (by linarith)
    have hz : 0 < Collision.overlapZ a b := lt_min (by linarith) (by linarith)
    exact lt_min hx (lt_min hy hz)
  · intro h
    have ht : Collision.testAABBvsAABB a b = true := by
      rcases Bool.eq_false_or_eq_true (Collision.testAABBvsAABB a b) with ht | ht
      · exact ht
      · exfalso
        unfold penOf at h
        rw [response_of_test_false ht] at h
        exact absurd h (by norm_num [CollisionResult.empty])
    have hpen : penOf a b = Collision.smallestOverlap a b := by
      unfold penOf
      rw [response_of_test_true ht, penNormal_fst]
    rw [hpen] at h
    have hx := lt_of_lt_of_le h (smallestOverlap_le_x a b)
    have hy := lt_of_lt_of_le h (smallestOverlap_le_y a b)
    have hz := lt_of_lt_of_le h (smallestOverlap_le_z a b)
    rw [Collision.overlapX, lt_min_iff] at hx
    rw [Collision.overlapY, lt_min_iff] at hy
    rw [Collision.overlapZ, lt_min_iff] at hz
    exact ⟨by linarith [hx.1], by linarith [hx.2], by linarith [hy.1],
      by linarith [hy.2], by linarith [hz.1], by linarith [hz.2]⟩

theorem deepestStep_eq (box : AABB) (acc : CollisionResult)
    (hacc : 0 ≤ acc.penetration) (b : AABB) :
    deepestStep box acc b =
      if acc.penetration < penOf box b then Collision.testAABBvsAABBResponse box b
      else acc := by
  unfold deepestStep
  by_cases hb : acc.penetration < penOf box b
  · rw [if_pos hb, if_pos]
    exact ⟨response_hit_of_pen_pos (lt_of_le_of_lt hacc hb), hb⟩
  · rw [if_neg hb, if_neg]
    intro hcond
    exact hb hcond.2

theorem foldl_deepest_char (box : AABB) (l : List AABB) :
    ∀ acc : CollisionResult, 0 ≤ acc.penetration →
      (List.foldl (deepestStep box) acc l = acc ∧
        ∀ b ∈ l, penOf box b ≤ acc.penetration) ∨
      (∃ i, ∃ hi : i < l.length,
        List.foldl (deepestStep box) acc l =
          Collision.testAABBvsAABBResponse box (l.get ⟨i, hi⟩) ∧
        acc.penetration < penOf box (l.get ⟨i, hi⟩) ∧
        (∀ j (hj : j < l.length),
          penOf box (l.get ⟨j, hj⟩) ≤ penOf box (l.get ⟨i, hi⟩)) ∧
        (∀ j (hj : j < l.length), j < i →
          penOf box (l.get ⟨j, hj⟩) < penOf box (l.get ⟨i, hi⟩))) := by
  induction l with
  | nil =>
    intro acc _
    left
    exact ⟨rfl, by simp⟩
  | cons b l ih =>
    intro acc hacc
    rw [List.foldl_cons, deepestStep_eq box acc hacc b]
    by_cases hb : acc.penetration < penOf box b
    · rw [if_pos hb]
      have h0 : 0 ≤ (Collision.testAABBvsAABBResponse box b).penetration :=
        response_pen_nonneg box b
      rcases ih (Collision.testAABBvsAABBResponse box b) h0 with
        ⟨heq, hall⟩ | ⟨i, hi, heq, hgt, hmax, hfirst⟩
      · right
        refine ⟨0, Nat.succ_pos _, heq, hb, ?_, ?_⟩
        · intro j hj
          cases j with
          | zero => exact le_refl _
          | succ k =>
            exact hall (l.get ⟨k, Nat.lt_of_succ_lt_succ hj⟩)
              (List.get_mem l k (Nat.lt_of_succ_lt_succ hj))
        · intro j hj hj0
          exact absurd hj0 (Nat.not_lt_zero _)
      · right
        refine ⟨i + 1, Nat.succ_lt_succ hi, heq, ?_, ?_, ?_⟩
        · exact lt_trans hb hgt
        · intro j hj
          cases j with
          | zero => exact le_of_lt hgt
          | succ k => exact hmax k (Nat.lt_of_succ_lt_succ hj)
        · intro j hj hji
          cases j with
          | zero => exact hgt
          | succ k =>
            exact hfirst k (Nat.lt_of_succ_lt_succ hj) (Nat.lt_of_succ_lt_succ hji)
    · rw [if_neg hb]
      push_neg at hb
      rcases ih acc hacc with ⟨heq, hall⟩ | ⟨i, hi, heq, hgt, hmax, hfirst⟩
      · left
        refine ⟨heq, ?_⟩
        intro b' hb'
        rcases List.mem_cons.mp hb' with rfl | hmem
        · exact hb
        · exact hall b' hmem
      · right
        refine ⟨i + 1, Nat.succ_lt_succ hi, heq, hgt, ?_, ?_⟩
        · intro j hj
          cases j with
          | zero => exact le_trans hb (le_of_lt hgt)
          | succ k => exact hmax k (Nat.lt_of_succ_lt_succ hj)
        · intro j hj hji
          cases j with
          | zero => exact lt_of_le_of_lt hb hgt
          | succ k =>
            exact hfirst k (Nat.lt_of_succ_lt_succ hj) (Nat.lt_of_succ_lt_succ hji)

/-- C2: testAgainstStatic returns the pairwise result of the overlapping
static box with the greatest penetration depth, exact ties won by the
earlier-inserted (first found) static box, and returns the non-hit
penetration-0 result when the moving box overlaps no static box. -/
theorem testAgainstStatic_deepest (world : CollisionWorld) (box : AABB) :
    ((∀ b ∈ world, ¬ interiorOverlap box b) →
      testAgainstStatic world box = CollisionResult.empty)
  ∧ ((∃ b ∈ world, interiorOverlap box b) →
      ∃ i, ∃ hi : i < world.length,
        interiorOverlap box (world.get ⟨i, hi⟩) ∧
        testAgainstStatic world box =
          Collision.testAABBvsAABBResponse box (world.get ⟨i, hi⟩) ∧
        (∀ j (hj : j < world.length),
          penOf box (world.get ⟨j, hj⟩) ≤ penOf box (world.get ⟨i, hi⟩)) ∧
        (∀ j (hj : j < world.length), j < i →
          penOf box (world.get ⟨j, hj⟩) < penOf box (world.get ⟨i, hi⟩))) := by
  have hchar := foldl_deepest_char box world CollisionResult.empty (le_refl 0)
  constructor
  · intro hnone
    rcases hchar with ⟨heq, _⟩ | ⟨i, hi, _, hgt, _, _⟩
    · exact heq
    · exfalso
      have hio : interiorOverlap box (world.get ⟨i, hi⟩) :=
        (interiorOverlap_iff_pen_pos _ _).mpr
          (by simpa [CollisionResult.empty] using hgt)
      exact hnone _ (List.get_mem world i hi) hio
  · intro hex
    rcases hchar with ⟨_, hall⟩ | ⟨i, hi, heq, hgt, hmax, hfirst⟩
    · exfalso
      obtain ⟨b, hmem, hio⟩ := hex
      have hpos := (interiorOverlap_iff_pen_pos box b).mp hio
      have hle := hall b hmem
      simp [CollisionResult.empty] at hle
      linarith
    · refine ⟨i, hi, ?_, heq, hmax, hfirst⟩
      exact (interiorOverlap_iff_pen_pos _ _).mpr
        (by simpa [CollisionResult.empty] using hgt)

theorem testAgainstStatic_deepest_witness :
    (∃ b ∈ worldEx, interiorOverlap movingBoxEx b) ∧
    (∃ i, ∃ hi : i < worldEx.length,
      interiorOverlap movingBoxEx (worldEx.get ⟨i, hi⟩) ∧
      testAgainstStatic worldEx movingBoxEx =
        Collision.testAABBvsAABBResponse movingBoxEx (worldEx.get ⟨i, hi⟩) ∧
      (∀ j (hj : j < worldEx.length),
        penOf movingBoxEx (worldEx.get ⟨j, hj⟩) ≤
          penOf movingBoxEx (worldEx.get ⟨i, hi⟩)) ∧
      (∀ j (hj : j < worldEx.length), j < i →
        penOf movingBoxEx (worldEx.get ⟨j, hj⟩) <
          penOf movingBoxEx (worldEx.get ⟨i, hi⟩))) := by
  have hyp : ∃ b ∈ worldEx, interiorOverlap movingBoxEx b := by
    refine ⟨wallDeep, by simp [worldEx], ?_⟩
    norm_num [interiorOverlap, movingBoxEx, wallDeep]
  exact ⟨hyp, (testAgainstStatic_deepest worldEx movingBoxEx).2 hyp⟩

/-- C3: for overlapping boxes, testAABBvsAABBResponse reports a hit whose
penetration is the smallest per-axis overlap, whose normal lies on the first
axis (priority X, Y, Z) attaining that smallest overlap and points away from
b's center as seen from a's center, and whose contact point is the midpoint
of the intersection region. -/
theorem response_minimal_axis (a b : AABB)
    (h : Collision.testAABBvsAABB a b = true) :
    (Collision.testAABBvsAABBResponse a b).hit = true
  ∧ (Collision.testAABBvsAABBResponse a b).penetration = Collision.smallestOverlap a b
  ∧ (Collision.testAABBvsAABBResponse a b).point =
      Vec3.smul (1/2) (Vec3.add (Vec3.vmax a.min b.min) (Vec3.vmin a.max b.max))
  ∧ (Collision.overlapX a b = Collision.smallestOverlap a b →
      (Collision.testAABBvsAABBResponse a b).normal =
        if (AABB.getCenter a).x < (AABB.getCenter b).x then (⟨-1, 0, 0⟩ : Vec3)
        else ⟨1, 0, 0⟩)
  ∧ (Collision.overlapX a b ≠ Collision.smallestOverlap a b →
      Collision.overlapY a b = Collision.smallestOverlap a b →
      (Collision.testAABBvsAABBResponse a b).normal =
        if (AABB.getCenter a).y < (AABB.getCenter b).y then (⟨0, -1, 0⟩ : Vec3)
        else ⟨0, 1, 0⟩)
  ∧ (Collision.overlapX a b ≠ Collision.smallestOverlap a b →
      Collision.overlapY a b ≠ Collision.smallestOverlap a b →
      (Collision.testAABBvsAABBResponse a b).normal =
        if (AABB.getCenter a).z < (AABB.getCenter b).z then (⟨0, 0, -1⟩ : Vec3)
        else ⟨0, 0, 1⟩) := by
  rw [response_of_test_true h]
  exact ⟨rfl, penNormal_fst a b, rfl, penNormal_snd_x a b,
    penNormal_snd_y a b, penNormal_snd_z a b⟩

theorem response_minimal_axis_witness :
    Collision.testAABBvsAABB boxA boxB = true ∧
    Collision.overlapX boxA boxB = Collision.smallestOverlap boxA boxB ∧
    (Collision.testAABBvsAABBResponse boxA boxB).normal = ⟨-1, 0, 0⟩ ∧
    (Collision.testAABBvsAABBResponse boxA boxB).penetration = 1/2 := by
  have ht : Collision.testAABBvsAABB boxA boxB = true := by
    norm_num [Collision.testAABBvsAABB, boxA, boxB]
  have hx : Collision.overlapX boxA boxB = Collision.smallestOverlap boxA boxB := by
    norm_num [Collision.overlapX, Collision.overlapY, Collision.overlapZ,
      Collision.smallestOverlap, boxA, boxB, min_def]
  have h := response_minimal_axis boxA boxB ht
  refine ⟨ht, hx, ?_, ?_⟩
  · rw [h.2.2.2.1 hx]
    norm_num [AABB.getCenter, boxA, boxB, Vec3.smul, Vec3.add]
  · rw [h.2.1]
    norm_num [Collision.overlapX, Collision.overlapY, Collision.overlapZ,
      Collision.smallestOverlap, boxA, boxB, min_def]

theorem push_separates (a b : AABB) (h : interiorOverlap a b)
    (eps : ℚ) (heps : 0 < eps) :
    Collision.testAABBvsAABB
      (AABB.translate a
        (Vec3.smul ((Collision.testAABBvsAABBResponse a b).penetration + eps)
          (Collision.testAABBvsAABBResponse a b).normal)) b = false := by
  obtain ⟨h1, h2, h3, h4, h5, h6⟩ := h
  have ht : Collision.testAABBvsAABB a b = true :=
    (test_eq_true_iff a b).mpr ⟨le_of_lt h1, le_of_lt h2, le_of_lt h3,
      le_of_lt h4, le_of_lt h5, le_of_lt h6⟩
  rw [response_of_test_true ht]
  unfold Collision.penNormal
  by_cases c1 : Collision.overlapX a b ≤ Collision.overlapY a b ∧
      Collision.overlapX a b ≤ Collision.overlapZ a b
  · rw [if_pos c1]
    by_cases hc : (AABB.getCenter a).x < (AABB.getCenter b).x
    · rw [if_pos hc]
      simp only [AABB.getCenter, Vec3.smul, Vec3.add] at hc
      have hov : Collision.overlapX a b = a.max.x - b.min.x := by
        rw [Collision.overlapX]
        exact min_eq_left (by linarith)
      by_contra hcon
      rw [Bool.not_eq_false, test_eq_true_iff] at hcon
      simp only [AABB.translate, Vec3.add, Vec3.smul] at hcon
      obtain ⟨g1, _, _, _, _, _⟩ := hcon
      rw [hov] at g1
      linarith
    · rw [if_neg hc]
      push_neg at hc
      simp only [AABB.getCenter, Vec3.smul, Vec3.add] at hc
      have hov : Collision.overlapX a b = b.max.x - a.min.x := by
        rw [Collision.overlapX]
        exact min_eq_right (by linarith)
      by_contra hcon
      rw [Bool.not_eq_false, test_eq_true_iff] at hcon
      simp only [AABB.translate, Vec3.add, Vec3.smul] at hcon
      obtain ⟨_, g2, _, _, _, _⟩ := hcon
      rw [hov] at g2
      linarith
  · rw [if_neg c1]
    by_cases c2 : Collision.overlapY a b ≤ Collision.overlapX a b ∧
        Collision.overlapY a b ≤ Collision.overlapZ a b
    · rw [if_pos c2]
      by_cases hc : (AABB.getCenter a).y < (AABB.getCenter b).y
      · rw [if_pos hc]
        simp only [AABB.getCenter, Vec3.smul, Vec3.add] at hc
        have hov : Collision.overlapY a b = a.max.y - b.min.y := by
          rw [Collision.overlapY]
          exact min_eq_left (by linarith)
        by_contra hcon
        rw [Bool.not_eq_false, test_eq_true_iff] at hcon
        simp only [AABB.translate, Vec3.add, Vec3.smul] at hcon
        obtain ⟨_, _, g3, _, _, _⟩ := hcon
        rw [hov] at g3
        linarith
      · rw [if_neg hc]
        push_neg at hc
        simp only [AABB.getCenter, Vec3.smul, Vec3.add] at hc
        have hov : Collision.overlapY a b = b.max.y - a.min.y := by
          rw [Collision.overlapY]
          exact min_eq_right (by linarith)
        by_contra hcon
        rw [Bool.not_eq_false, test_eq_true_iff] at hcon
        simp only [AABB.translate, Vec3.add, Vec3.smul] at hcon
        obtain ⟨_, _, _, g4, _, _⟩ := hcon
        rw [hov] at g4
        linarith
    · rw [if_neg c2]
      by_cases hc : (AABB.getCenter a).z < (AABB.getCenter b).z
      · rw [if_pos hc]
        simp only [AABB.getCenter, Vec3.smul, Vec3.add] at hc
        have hov : Collision.overlapZ a b = a.max.z - b.min.z := by
          rw [Collision.overlapZ]
          exact min_eq_left (by linarith)
        by_contra hcon
        rw [Bool.not_eq_false, test_eq_true_iff] at hcon
        simp only [AABB.translate, Vec3.add, Vec3.smul] at hcon
        obtain ⟨_, _, _, _, g5, _⟩ := hcon
        rw [hov] at g5
        linarith
      · rw [if_neg hc]
        push_neg at hc
        simp only [AABB.getCenter, Vec3.smul, Vec3.add] at hc
        have hov : Collision.overlapZ a b = b.max.z - a.min.z := by
          rw [Collision.overlapZ]
          exact min_eq_right (by linarith)
        by_contra hcon
        rw [Bool.not_eq_false, test_eq_true_iff] at hcon
        simp only [AABB.translate, Vec3.add, Vec3.smul] at hcon
        obtain ⟨_, _, _, _, _, g6⟩ := hcon
        rw [hov] at g6
        linarith

theorem testAgainstStatic_single (wall box : AABB) (h : interiorOverlap box wall) :
    testAgainstStatic [wall] box = Collision.testAABBvsAABBResponse box wall := by
  unfold testAgainstStatic
  rw [List.foldl_cons, List.foldl_nil,
    deepestStep_eq box CollisionResult.empty (le_refl 0) wall, if_pos]
  simpa [CollisionResult.empty] using (interiorOverlap_iff_pen_pos box wall).mp h

theorem testAgainstStatic_single_empty {wall box : AABB}
    (h : Collision.testAABBvsAABB box wall = false) :
    testAgainstStatic [wall] box = CollisionResult.empty := by
  unfold testAgainstStatic
  rw [List.foldl_cons, List.foldl_nil,
    deepestStep_eq box CollisionResult.empty (le_refl 0) wall, if_neg]
  unfold penOf
  rw [response_of_test_false h]
  norm_num [CollisionResult.empty]

/-- C4: resolveCollisions runs at most 4 iterations, each displacing the
tracked position and the test box by normal * (penetration + 0.001) of the
current deepest hit; it stops as soon as no static box is hit; against a
single wall, any box overlapping the wall's interior (in particular a box
fully inside it) ends separated: a fresh testAABBvsAABB on the corrected box
returns false. -/
theorem resolveCollisions_spec :
    (∀ (world : CollisionWorld) (box : AABB) (pos : Vec3),
        (testAgainstStatic world box).hit = false →
        resolveCollisions world box pos = pos)
  ∧ (∀ (world : CollisionWorld) (n : ℕ) (box : AABB) (pos : Vec3),
        (testAgainstStatic world box).hit = true →
        resolveLoop world (n + 1) box pos =
          resolveLoop world n
            (box.translate
              (Vec3.smul ((testAgainstStatic world box).penetration + 1/1000)
                (testAgainstStatic world box).normal))
            (Vec3.add pos
              (Vec3.smul ((testAgainstStatic world box).penetration + 1/1000)
                (testAgainstStatic world box).normal)))
  ∧ (∀ (wall box : AABB) (pos : Vec3), interiorOverlap box wall →
        Collision.testAABBvsAABB ((resolveLoop [wall] 4 box pos).2) wall = false
      ∧ (resolveLoop [wall] 4 box pos).2 =
          box.translate (Vec3.sub (resolveCollisions [wall] box pos) pos)) := by
  refine ⟨?_, ?_, ?_⟩
  · intro world box pos h
    show (resolveLoop world (3 + 1) box pos).1 = pos
    simp only [resolveLoop, h]
    simp
  · intro world n box pos h
    simp only [resolveLoop, h]
    simp
  · intro wall box pos h
    have hpen : 0 < penOf box wall := (interiorOverlap_iff_pen_pos box wall).mp h
    have h1 := testAgainstStatic_single wall box h
    have hhit : (testAgainstStatic [wall] box).hit = true := by
      rw [h1]
      exact response_hit_of_pen_pos hpen
    have hsep :
        Collision.testAABBvsAABB
          (box.translate
            (Vec3.smul ((Collision.testAABBvsAABBResponse box wall).penetration + 1/1000)
              (Collision.testAABBvsAABBResponse box wall).normal)) wall = false :=
      push_separates box wall h (1/1000) (by norm_num)
    have e1 : resolveLoop [wall] 4 box pos =
        resolveLoop [wall] 3
          (box.translate
            (Vec3.smul ((Collision.testAABBvsAABBResponse box wall).penetration + 1/1000)
              (Collision.testAABBvsAABBResponse box wall).normal))
          (Vec3.add pos
            (Vec3.smul ((Collision.testAABBvsAABBResponse box wall).penetration + 1/1000)
              (Collision.testAABBvsAABBResponse box wall).normal)) := by
      show resolveLoop [wall] (3 + 1) box pos = _
      simp only [resolveLoop, h1, hhit]
      rw [h1] at hhit
      simp [hhit]
    have e2 : resolveLoop [wall] 3
        (box.translate
          (Vec3.smul ((Collision.testAABBvsAABBResponse box wall).penetration + 1/1000)
            (Collision.testAABBvsAABBResponse box wall).normal))
        (Vec3.add pos
          (Vec3.smul ((Collision.testAABBvsAABBResponse box wall).penetration + 1/1000)
            (Collision.testAABBvsAABBResponse box wall).normal)) =
        (Vec3.add pos
          (Vec3.smul ((Collision.testAABBvsAABBResponse box wall).penetration + 1/1000)
            (Collision.testAABBvsAABBResponse box wall).normal),
         box.translate
          (Vec3.smul ((Collision.testAABBvsAABBResponse box wall).penetration + 1/1000)
            (Collision.testAABBvsAABBResponse box wall).normal)) := by
      show resolveLoop [wall] (2 + 1) _ _ = _
      simp only [resolveLoop, testAgainstStatic_single_empty hsep]
      simp [CollisionResult.empty]
    rw [e1, e2]
    refine ⟨hsep, ?_⟩
    show _ = box.translate (Vec3.sub ((resolveLoop [wall] 4 box pos).1) pos)
    rw [e1, e2]
    simp only [AABB.translate, Vec3.add, Vec3.sub, Vec3.smul]
    norm_num

theorem resolveCollisions_spec_witness :
    interiorOverlap boxInside wallBig ∧
    (Collision.testAABBvsAABB ((resolveLoop [wallBig] 4 boxInside Vec3.zero).2) wallBig
        = false
      ∧ (resolveLoop [wallBig] 4 boxInside Vec3.zero).2 =
          boxInside.translate
            (Vec3.sub (resolveCollisions [wallBig] boxInside Vec3.zero) Vec3.zero)) := by
  have hio : interiorOverlap boxInside wallBig := by
    norm_num [interiorOverlap, boxInside, wallBig]
  exact ⟨hio, resolveCollisions_spec.2.2 wallBig boxInside Vec3.zero hio⟩

theorem translationOf_translateMat (v : Vec3) :
    translationOf (translateMat v) = v := by
  simp [translationOf, translateMat]

/-- C1: endFrame executes all opaque commands first, in exactly their
submission order, followed by the transparent commands sorted by descending
distance-to-camera stored at submission time; three transparent commands
submitted with stored distances 3, 1, 5 execute in the order 5, 3, 1. -/
theorem endFrame_order :
    (∀ s : RendererState,
       s.endFrame.take s.opaqueCommands.length = s.opaqueCommands
     ∧ ∃ t, s.endFrame = s.opaqueCommands ++ t ∧
         t.Perm s.transparentCommands ∧
         List.Sorted (fun c d : RenderCommand =>
           d.distanceToCamera ≤ c.distanceToCamera) t)
  ∧ (∀ sq : ℚ → ℚ, sq 9 = 3 → sq 1 = 1 → sq 25 = 5 →
       ((((((RendererState.fresh Vec3.zero).submit sq 1 (1/2)
              (translateMat ⟨3, 0, 0⟩)).submit sq 2 (1/2)
              (translateMat ⟨1, 0, 0⟩)).submit sq 3 (1/2)
              (translateMat ⟨5, 0, 0⟩)).endFrame).map
           (fun c => (c.model, c.distanceToCamera))) = [(3, 5), (1, 3), (2, 1)]) := by
  constructor
  · intro s
    constructor
    · exact List.take_left _ _
    · refine ⟨sortTransparentCommands s.transparentCommands, rfl,
        List.perm_insertionSort _ _, ?_⟩
      haveI : IsTotal RenderCommand (fun c d : RenderCommand =>
          d.distanceToCamera ≤ c.distanceToCamera) :=
        ⟨fun a b => le_total b.distanceToCamera a.distanceToCamera⟩
      haveI : IsTrans RenderCommand (fun c d : RenderCommand =>
          d.distanceToCamera ≤ c.distanceToCamera) :=
        ⟨fun _ _ _ hab hbc => le_trans hbc hab⟩
      exact List.sorted_insertionSort _ _
  · intro sq h9 h1 h25
    norm_num [RendererState.fresh, RendererState.submit, RendererState.endFrame,
      sortTransparentCommands, translationOf_translateMat, Vec3.sub, Vec3.dot,
      Vec3.zero, List.insertionSort, List.orderedInsert, h9, h1, h25]

theorem endFrame_order_witness :
    (fun q : ℚ => if q = 9 then (3 : ℚ) else if q = 25 then 5 else 1) 9 = 3 ∧
    (fun q : ℚ => if q = 9 then (3 : ℚ) else if q = 25 then 5 else 1) 1 = 1 ∧
    (fun q : ℚ => if q = 9 then (3 : ℚ) else if q = 25 then 5 else 1) 25 = 5 ∧
    ((((((RendererState.fresh Vec3.zero).submit
          (fun q : ℚ => if q = 9 then (3 : ℚ) else if q = 25 then 5 else 1) 1 (1/2)
          (translateMat ⟨3, 0, 0⟩)).submit
          (fun q : ℚ => if q = 9 then (3 : ℚ) else if q = 25 then 5 else 1) 2 (1/2)
          (translateMat ⟨1, 0, 0⟩)).submit
          (fun q : ℚ => if q = 9 then (3 : ℚ) else if q = 25 then 5 else 1) 3 (1/2)
          (translateMat ⟨5, 0, 0⟩)).endFrame).map
        (fun c => (c.model, c.distanceToCamera))) = [(3, 5), (1, 3), (2, 1)] := by
  refine ⟨by norm_num, by norm_num, by norm_num, ?_⟩
  exact endFrame_order.2 _ (by norm_num) (by norm_num) (by norm_num)

theorem clampQ_mem (v lo hi : ℚ) (h : lo ≤ hi) :
    lo ≤ clampQ v lo hi ∧ clampQ v lo hi ≤ hi := by
  unfold clampQ
  split_ifs <;> constructor <;> linarith

theorem pMM_freeRoam_pitch (cd sd sq : ℚ → ℚ) (dx dy : ℚ) (c : Camera)
    (hm : c.mode = CameraMode.FREE_ROAM) :
    (Camera.processMouseMovement cd sd sq dx dy true c).mode = CameraMode.FREE_ROAM
  ∧ (Camera.processMouseMovement cd sd sq dx dy true c).pitch =
      clampQ (c.pitch + dy * c.mouseSensitivity) (-89) 89
  ∧ (Camera.processMouseMovement cd sd sq dx dy true c).mouseSensitivity =
      c.mouseSensitivity := by
  unfold Camera.processMouseMovement
  rw [hm]
  simp [Camera.updateCameraVectors]

/-- C5: in FREE_ROAM mode with the pitch constraint enabled, no sequence of
mouse deltas ever drives the pitch above 89 or below -89: every call clamps
it back into the range. -/
theorem freeRoam_pitch_clamped (cd sd sq : ℚ → ℚ) (deltas : List (ℚ × ℚ))
    (c : Camera) (hm : c.mode = CameraMode.FREE_ROAM)
    (hlo : -89 ≤ c.pitch) (hhi : c.pitch ≤ 89) :
    -89 ≤ (deltas.foldl (fun cam d =>
        Camera.processMouseMovement cd sd sq d.1 d.2 true cam) c).pitch
  ∧ (deltas.foldl (fun cam d =>
        Camera.processMouseMovement cd sd sq d.1 d.2 true cam) c).pitch ≤ 89 := by
  induction deltas generalizing c with
  | nil => exact ⟨hlo, hhi⟩
  | cons d rest ih =>
    rw [List.foldl_cons]
    have hstep := pMM_freeRoam_pitch cd sd sq d.1 d.2 c hm
    have hbounds := clampQ_mem (c.pitch + d.2 * c.mouseSensitivity) (-89) 89
      (by norm_num)
    exact ih _ hstep.1 (hstep.2.1 ▸ hbounds.1) (hstep.2.1 ▸ hbounds.2)

theorem freeRoam_pitch_clamped_witness :
    (Camera.mk' (fun _ : ℚ => 0) (fun _ : ℚ => 0) (fun _ : ℚ => 0)).mode =
      CameraMode.FREE_ROAM
  ∧ (-89 ≤ ([((0 : ℚ), (100000 : ℚ)), (0, 100000)].foldl
        (fun cam d =>
          Camera.processMouseMovement (fun _ : ℚ => 0) (fun _ : ℚ => 0)
            (fun _ : ℚ => 0) d.1 d.2 true cam)
        (Camera.mk' (fun _ : ℚ => 0) (fun _ : ℚ => 0) (fun _ : ℚ => 0))).pitch
    ∧ ([((0 : ℚ), (100000 : ℚ)), (0, 100000)].foldl
        (fun cam d =>
          Camera.processMouseMovement (fun _ : ℚ => 0) (fun _ : ℚ => 0)
            (fun _ : ℚ => 0) d.1 d.2 true cam)
        (Camera.mk' (fun _ : ℚ => 0) (fun _ : ℚ => 0) (fun _ : ℚ => 0))).pitch ≤ 89) := by
  have hm : (Camera.mk' (fun _ : ℚ => 0) (fun _ : ℚ => 0) (fun _ : ℚ => 0)).mode =
      CameraMode.FREE_ROAM := rfl
  refine ⟨hm, ?_⟩
  exact freeRoam_pitch_clamped (fun _ => 0) (fun _ => 0) (fun _ => 0)
    [(0, 100000), (0, 100000)] _ hm (by norm_num [Camera.mk',
      Camera.updateCameraVectors, Camera.defaultFields]) (by norm_num [Camera.mk',
      Camera.updateCameraVectors, Camera.defaultFields])

/-- C6: updateOrbitPosition places the camera at
target + radius * (cos pitch * cos yaw, sin pitch, cos pitch * sin yaw) with
the front vector pointing at the target; with yaw 0, pitch 0, radius 5 and
target (0,0,0) the camera sits at (5,0,0) looking toward the origin. -/
theorem orbit_position_formula :
    (∀ (cd sd sq : ℚ → ℚ) (c : Camera),
       (c.updateOrbitPosition cd sd sq).position =
         Vec3.add c.orbitTarget
           ⟨c.orbitRadius * cd c.orbitPitch * cd c.orbitYaw,
            c.orbitRadius * sd c.orbitPitch,
            c.orbitRadius * cd c.orbitPitch * sd c.orbitYaw⟩
     ∧ (c.updateOrbitPosition cd sd sq).front =
         Vec3.normalizeWith sq
           (Vec3.sub c.orbitTarget (c.updateOrbitPosition cd sd sq).position))
  ∧ (∀ cd sd sq : ℚ → ℚ, cd 0 = 1 → sd 0 = 0 → sq 25 = 5 →
       (orbitCamEx.updateOrbitPosition cd sd sq).position = ⟨5, 0, 0⟩
     ∧ (orbitCamEx.updateOrbitPosition cd sd sq).front = ⟨-1, 0, 0⟩) := by
  constructor
  · intro cd sd sq c
    exact ⟨rfl, rfl⟩
  · intro cd sd sq hc hs hq
    constructor
    · norm_num [Camera.updateOrbitPosition, orbitCamEx, Camera.defaultFields,
        Vec3.add, Vec3.zero, hc, hs]
    · norm_num [Camera.updateOrbitPosition, orbitCamEx, Camera.defaultFields,
        Vec3.add, Vec3.sub, Vec3.zero, Vec3.normalizeWith, Vec3.dot, Vec3.smul,
        hc, hs, hq]

theorem orbit_position_formula_witness :
    (fun _ : ℚ => (1 : ℚ)) 0 = 1 ∧ (fun _ : ℚ => (0 : ℚ)) 0 = 0 ∧
    (fun _ : ℚ => (5 : ℚ)) 25 = 5 ∧
    ((orbitCamEx.updateOrbitPosition (fun _ => 1) (fun _ => 0) (fun _ => 5)).position
        = ⟨5, 0, 0⟩
      ∧ (orbitCamEx.updateOrbitPosition (fun _ => 1) (fun _ => 0) (fun _ => 5)).front
        = ⟨-1, 0, 0⟩) := by
  refine ⟨rfl, rfl, rfl, ?_⟩
  exact orbit_position_formula.2 _ _ _ rfl rfl rfl

/-- C7: every position/rotation/scale setter marks the cached model matrix
dirty; getModelMatrix recomputes only when dirty and then clears the flag;
two reads with no setter in between perform no recompute and return
identical matrices; on every read of a coherent model the returned matrix
reflects the current position/rotation/scale (the cache is never stale at
the moment of read). -/
theorem modelMatrix_dirty_flag :
    (∀ (v : Vec3) (m : ModelT),
        (ModelT.setPosition v m).modelMatrixDirty = true
      ∧ (ModelT.setRotation v m).modelMatrixDirty = true
      ∧ (ModelT.setScale v m).modelMatrixDirty = true)
  ∧ (∀ (k : ℚ) (m : ModelT), (ModelT.setScaleUniform k m).modelMatrixDirty = true)
  ∧ (∀ (cd sd : ℚ → ℚ) (m : ModelT), m.modelMatrixDirty = false →
        m.getModelMatrix cd sd = (m.modelMatrix, m))
  ∧ (∀ (cd sd : ℚ → ℚ) (m : ModelT), m.modelMatrixDirty = true →
        (m.getModelMatrix cd sd).1 =
          buildModelMatrix cd sd m.position m.rotation m.scale
      ∧ (m.getModelMatrix cd sd).2.modelMatrixDirty = false
      ∧ (m.getModelMatrix cd sd).2.recomputeCount = m.recomputeCount + 1)
  ∧ (∀ (cd sd : ℚ → ℚ) (m : ModelT),
        ((m.getModelMatrix cd sd).2.getModelMatrix cd sd).1 =
          (m.getModelMatrix cd sd).1
      ∧ ((m.getModelMatrix cd sd).2.getModelMatrix cd sd).2 =
          (m.getModelMatrix cd sd).2
      ∧ ((m.getModelMatrix cd sd).2.getModelMatrix cd sd).2.recomputeCount =
          (m.getModelMatrix cd sd).2.recomputeCount)
  ∧ (∀ (cd sd : ℚ → ℚ) (m : ModelT), m.coherent cd sd →
        (m.getModelMatrix cd sd).1 =
          buildModelMatrix cd sd m.position m.rotation m.scale
      ∧ ModelT.coherent cd sd (m.getModelMatrix cd sd).2)
  ∧ (∀ (cd sd : ℚ → ℚ) (v : Vec3) (k : ℚ) (m : ModelT),
        ModelT.coherent cd sd (ModelT.setPosition v m)
      ∧ ModelT.coherent cd sd (ModelT.setRotation v m)
      ∧ ModelT.coherent cd sd (ModelT.setScale v m)
      ∧ ModelT.coherent cd sd (ModelT.setScaleUniform k m))
  ∧ (∀ cd sd : ℚ → ℚ, ModelT.init.modelMatrixDirty = true
      ∧ ModelT.coherent cd sd ModelT.init) := by
  refine ⟨?_, ?_, ?_, ?_, ?_, ?_, ?_, ?_⟩
  · intro v m
    exact ⟨rfl, rfl, rfl⟩
  · intro k m
    exact rfl
  · intro cd sd m h
    simp [ModelT.getModelMatrix, h]
  · intro cd sd m h
    simp [ModelT.getModelMatrix, ModelT.updateModelMatrix, h]
  · intro cd sd m
    by_cases h : m.modelMatrixDirty = true
    · simp [ModelT.getModelMatrix, ModelT.updateModelMatrix, h]
    · simp only [Bool.not_eq_true] at h
      simp [ModelT.getModelMatrix, h]
  · intro cd sd m hcoh
    by_cases h : m.modelMatrixDirty = true
    · constructor
      · simp [ModelT.getModelMatrix, ModelT.updateModelMatrix, h]
      · intro hd
        simp [ModelT.getModelMatrix, ModelT.updateModelMatrix, h]
    · simp only [Bool.not_eq_true] at h
      constructor
      · simp [ModelT.getModelMatrix, h]
        exact hcoh h
      · simp [ModelT.getModelMatrix, h]
        exact hcoh
  · intro cd sd v k m
    refine ⟨?_, ?_, ?_, ?_⟩ <;> intro hd <;> simp [ModelT.setPosition,
      ModelT.setRotation, ModelT.setScale, ModelT.setScaleUniform] at hd
  · intro cd sd
    refine ⟨rfl, ?_⟩
    intro hd
    simp [ModelT.init] at hd

theorem modelMatrix_dirty_flag_witness :
    ModelT.init.modelMatrixDirty = true ∧
    ModelT.coherent (fun _ : ℚ => 0) (fun _ : ℚ => 0) ModelT.init ∧
    ((ModelT.init.getModelMatrix (fun _ : ℚ => 0) (fun _ : ℚ => 0)).1 =
        buildModelMatrix (fun _ : ℚ => 0) (fun _ : ℚ => 0)
          ModelT.init.position ModelT.init.rotation ModelT.init.scale
      ∧ (ModelT.init.getModelMatrix (fun _ : ℚ => 0) (fun _ : ℚ => 0)).2.modelMatrixDirty
          = false
      ∧ (ModelT.init.getModelMatrix (fun _ : ℚ => 0) (fun _ : ℚ => 0)).2.recomputeCount
          = ModelT.init.recomputeCount + 1)
  ∧ ModelT.coherent (fun _ : ℚ => 0) (fun _ : ℚ => 0)
      (ModelT.init.getModelMatrix (fun _ : ℚ => 0) (fun _ : ℚ => 0)).2 := by
  have hinit := modelMatrix_dirty_flag.2.2.2.2.2.2.2 (fun _ : ℚ => 0) (fun _ : ℚ => 0)
  refine ⟨hinit.1, hinit.2, ?_, ?_⟩
  · exact modelMatrix_dirty_flag.2.2.2.1 _ _ ModelT.init hinit.1
  · exact (modelMatrix_dirty_flag.2.2.2.2.2.1 _ _ ModelT.init hinit.2).2

/-- C8: every supplied easing function maps 0 to exactly 0 and 1 to exactly
1 (the elastic easings by their explicit endpoint special case, regardless
of the powf/sinf oracles). -/
theorem easing_boundary :
    Easing.linear 0 = 0 ∧ Easing.linear 1 = 1
  ∧ Easing.easeInQuad 0 = 0 ∧ Easing.easeInQuad 1 = 1
  ∧ Easing.easeOutQuad 0 = 0 ∧ Easing.easeOutQuad 1 = 1
  ∧ Easing.easeInOutQuad 0 = 0 ∧ Easing.easeInOutQuad 1 = 1
  ∧ Easing.easeInCubic 0 = 0 ∧ Easing.easeInCubic 1 = 1
  ∧ Easing.easeOutCubic 0 = 0 ∧ Easing.easeOutCubic 1 = 1
  ∧ Easing.easeInOutCubic 0 = 0 ∧ Easing.easeInOutCubic 1 = 1
  ∧ (∀ pw sn : ℚ → ℚ,
      Easing.easeInElastic pw sn 0 = 0 ∧ Easing.easeInElastic pw sn 1 = 1
    ∧ Easing.easeOutElastic pw sn 0 = 0 ∧ Easing.easeOutElastic pw sn 1 = 1)
  ∧ Easing.easeOutBounce 0 = 0 ∧ Easing.easeOutBounce 1 = 1 := by
  refine ⟨rfl, rfl,
    by norm_num [Easing.easeInQuad], by norm_num [Easing.easeInQuad],
    by norm_num [Easing.easeOutQuad], by norm_num [Easing.easeOutQuad],
    by norm_num [Easing.easeInOutQuad], by norm_num [Easing.easeInOutQuad],
    by norm_num [Easing.easeInCubic], by norm_num [Easing.easeInCubic],
    by norm_num [Easing.easeOutCubic], by norm_num [Easing.easeOutCubic],
    by norm_num [Easing.easeInOutCubic], by norm_num [Easing.easeInOutCubic],
    ?_,
    by norm_num [Easing.easeOutBounce], by norm_num [Easing.easeOutBounce]⟩
  intro pw sn
  refine ⟨by norm_num [Easing.easeInElastic], by norm_num [Easing.easeInElastic],
    by norm_num [Easing.easeOutElastic], by norm_num [Easing.easeOutElastic]⟩

theorem easing_boundary_witness :
    Easing.easeInElastic (fun _ : ℚ => 0) (fun _ : ℚ => 0) 0 = 0
  ∧ Easing.easeInElastic (fun _ : ℚ => 0) (fun _ : ℚ => 0) 1 = 1
  ∧ Easing.easeOutElastic (fun _ : ℚ => 0) (fun _ : ℚ => 0) 0 = 0
  ∧ Easing.easeOutElastic (fun _ : ℚ => 0) (fun _ : ℚ => 0) 1 = 1 := by
  obtain ⟨-, -, -, -, -, -, -, -, -, -, -, -, -, -, h, -, -⟩ := easing_boundary
  exact h (fun _ : ℚ => 0) (fun _ : ℚ => 0)

theorem update_eq_of_ge (dt : ℚ) (s : AnimationState) (hc : s.complete = false)
    (hp : s.paused = false) (ht : 1 ≤ (s.elapsed + dt) / s.duration) :
    AnimationState.update dt s =
      (s.startValue + (s.endValue - s.startValue) * s.easing 1,
       { s with elapsed := s.elapsed + dt
                complete := true
                callbackCount :=
                  s.callbackCount + (if s.hasCallback = true then 1 else 0)
                currentValue :=
                  s.startValue + (s.endValue - s.startValue) * s.easing 1 }) := by
  simp only [AnimationState.update]
  rw [if_neg (by simp [hc, hp]), if_pos ht]

theorem update_eq_of_lt (dt : ℚ) (s : AnimationState) (hc : s.complete = false)
    (hp : s.paused = false) (ht : (s.elapsed + dt) / s.duration < 1) :
    AnimationState.update dt s =
      (s.startValue + (s.endValue - s.startValue) *
         s.easing ((s.elapsed + dt) / s.duration),
       { s with elapsed := s.elapsed + dt
                complete := false
                currentValue :=
                  s.startValue + (s.endValue - s.startValue) *
                    s.easing ((s.elapsed + dt) / s.duration) }) := by
  simp only [AnimationState.update]
  rw [if_neg (by simp [hc, hp]), if_neg (not_le.mpr ht)]
  rw [hc]

/-- C9: Animation::update freezes the value once complete or paused;
otherwise it advances the elapsed time by dt, clamps the normalised progress
to 1, eases, lerps, and on the update where the progress first reaches 1 it
sets the complete flag and invokes the optional completion callback exactly
once. -/
theorem animation_update_spec :
    (∀ (dt : ℚ) (s : AnimationState),
        s.complete = true ∨ s.paused = true →
        AnimationState.update dt s = (s.currentValue, s))
  ∧ (∀ (dt : ℚ) (s : AnimationState), s.complete = false → s.paused = false →
        (AnimationState.update dt s).2.elapsed = s.elapsed + dt
      ∧ (AnimationState.update dt s).1 =
          s.startValue + (s.endValue - s.startValue) *
            s.easing (min ((s.elapsed + dt) / s.duration) 1)
      ∧ (AnimationState.update dt s).2.currentValue = (AnimationState.update dt s).1
      ∧ (1 ≤ (s.elapsed + dt) / s.duration →
          (AnimationState.update dt s).2.complete = true
        ∧ (AnimationState.update dt s).2.callbackCount =
            s.callbackCount + (if s.hasCallback = true then 1 else 0))
      ∧ ((s.elapsed + dt) / s.duration < 1 →
          (AnimationState.update dt s).2.complete = false
        ∧ (AnimationState.update dt s).2.callbackCount = s.callbackCount)) := by
  constructor
  · intro dt s h
    unfold AnimationState.update
    rw [if_pos h]
  · intro dt s hc hp
    by_cases ht : 1 ≤ (s.elapsed + dt) / s.duration
    · rw [update_eq_of_ge dt s hc hp ht]
      refine ⟨rfl, ?_, rfl, fun _ => ⟨rfl, rfl⟩, fun hlt => absurd ht (not_le.mpr hlt)⟩
      rw [min_eq_right ht]
    · rw [update_eq_of_lt dt s hc hp (not_le.mp ht)]
      push_neg at ht
      refine ⟨rfl, ?_, rfl, fun hge => absurd hge (not_le.mpr ht), fun _ => ⟨rfl, rfl⟩⟩
      rw [min_eq_left (le_of_lt ht)]

theorem animation_update_spec_witness :
    ((AnimationState.update 1 animEx).2.complete = false
      ∧ (AnimationState.update 1 animEx).2.paused = false
      ∧ (AnimationState.update 1 animEx).2.elapsed = 1)
  ∧ (AnimationState.update (3/2) (AnimationState.update 1 animEx).2).2.complete = true
  ∧ (AnimationState.update (3/2) (AnimationState.update 1 animEx).2).2.currentValue = 10
  ∧ (AnimationState.update (3/2) (AnimationState.update 1 animEx).2).1 = 10 := by
  have h1 : (AnimationState.update 1 animEx).2.complete = false
      ∧ (AnimationState.update 1 animEx).2.paused = false
      ∧ (AnimationState.update 1 animEx).2.elapsed = 1 := by
    norm_num [AnimationState.update, animEx, AnimationState.mk']
  have h2 := animation_update_spec.2 (3/2) (AnimationState.update 1 animEx).2
    h1.1 h1.2.1
  have hs : (AnimationState.update 1 animEx).2.startValue = 0
      ∧ (AnimationState.update 1 animEx).2.endValue = 10
      ∧ (AnimationState.update 1 animEx).2.duration = 2
      ∧ (AnimationState.update 1 animEx).2.easing = Easing.linear := by
    norm_num [AnimationState.update, animEx, AnimationState.mk']
  have hprog : (1 : ℚ) ≤ ((AnimationState.update 1 animEx).2.elapsed + 3/2) /
      (AnimationState.update 1 animEx).2.duration := by
    rw [h1.2.2, hs.2.2.1]
    norm_num
  have hval : (AnimationState.update (3/2) (AnimationState.update 1 animEx).2).1 = 10 := by
    rw [h2.2.1, h1.2.2, hs.1, hs.2.1, hs.2.2.1, hs.2.2.2]
    norm_num [Easing.linear, min_def]
  exact ⟨h1, (h2.2.2.2.1 hprog).1, by rw [h2.2.2.1]; exact hval, hval⟩

/-- C10: Animation::reverse swaps only start and end, resets elapsed to 0 and
clears the complete flag, leaving the current value, paused flag, duration,
easing function and callback state untouched — so getValue still returns the
pre-call value, unlike reset, which rewinds the current value to the start
value. -/
theorem animation_reverse_spec (s : AnimationState) :
    AnimationState.reverse s =
      { s with startValue := s.endValue, endValue := s.startValue,
               elapsed := 0, complete := false }
  ∧ (AnimationState.reverse s).currentValue = s.currentValue
  ∧ (AnimationState.reverse s).paused = s.paused
  ∧ (AnimationState.reverse s).duration = s.duration
  ∧ (AnimationState.reverse s).easing = s.easing
  ∧ (AnimationState.reverse s).hasCallback = s.hasCallback
  ∧ (AnimationState.reverse s).callbackCount = s.callbackCount
  ∧ (AnimationState.reverse s).getValue = s.getValue
  ∧ AnimationState.reset s =
      { s with elapsed := 0, complete := false, currentValue := s.startValue }
  ∧ (AnimationState.reset s).getValue = s.startValue :=
  ⟨rfl, rfl, rfl, rfl, rfl, rfl, rfl, rfl, rfl, rfl⟩

theorem animation_reverse_spec_witness :
    AnimationState.reverse animEx =
      { animEx with startValue := animEx.endValue, endValue := animEx.startValue,
                    elapsed := 0, complete := false }
  ∧ (AnimationState.reverse animEx).currentValue = animEx.currentValue
  ∧ (AnimationState.reset animEx).getValue = animEx.startValue :=
  ⟨(animation_reverse_spec animEx).1, (animation_reverse_spec animEx).2.1,
    (animation_reverse_spec animEx).2.2.2.2.2.2.2.2.2⟩

end Showroom
